import Mathlib

/-!
# Verification of the invoice-extraction task pipeline

A shallow embedding of the asynchronous invoice-extraction service:
the submission endpoint (`src/app/api.py`, `submit_invoice_for_extraction`
and `get_task_status`) and the polling worker (`src/app/worker.py`,
`read_txt`, `process_task`, `main_loop`).

Task records are JSON objects stored in Redis under keys `task:{id}`.
We model JSON values with `JVal`, Python dictionaries as ordered
association lists (`Dict`), and the Redis store as an association list
from string keys to task dictionaries.  External collaborators
(PyPDF2, the OpenAI model call, Pydantic validation of the opaque
invoice schema) are modelled as outcome oracles in an `Env` record;
everything the repository itself computes (base64, UTF-8 decoding with
Latin-1 fallback, the dictionary manipulations, the control flow of
`process_task` and of the scan loop) is embedded concretely.
-/

set_option autoImplicit false

namespace Invoice

/-- JSON values as stored in a task record: `null`, strings, and
objects (used for the structured extraction result). -/
inductive JVal where
  | null : JVal
  | str : String → JVal
  | obj : List (String × JVal) → JVal

/-- A Python dictionary with string keys, as an ordered association list
(first occurrence of a key wins on lookup, matching `dict`). -/
abbrev Dict (α : Type) : Type := List (String × α)

namespace Dict

variable {α : Type}

/-- `d.get(k)` — first binding of `k`, if any. -/
def get : Dict α → String → Option α
  | [], _ => none
  | (k', v) :: rest, k => if k' == k then some v else get rest k

/-- `d[k] = v` — replace in place if present (Python dicts keep insertion
order on update), append otherwise. -/
def set : Dict α → String → α → Dict α
  | [], k, v => [(k, v)]
  | (k', v') :: rest, k, v =>
      if k' == k then (k, v) :: rest else (k', v') :: set rest k v

/-- `d.pop(k, None)` — remove every binding of `k`. -/
def pop (d : Dict α) (k : String) : Dict α :=
  d.filter (fun kv => kv.1 != k)

/-- The keys of a dictionary, in order. -/
def keys (d : Dict α) : List String :=
  d.map Prod.fst

theorem get_set_self (d : Dict α) (k : String) (v : α) :
    get (set d k v) k = some v := by
  induction d with
  | nil => simp [get, set]
  | cons kv rest ih =>
      cases kv with
      | mk k' v' =>
          by_cases h : k' = k
          · simp [set, get, h]
          · have hb : (k' == k) = false := beq_eq_false_iff_ne.mpr h
            simp [set, get, hb, ih]

theorem get_set_ne (d : Dict α) (k k' : String) (v : α) (h : k ≠ k') :
    get (set d k v) k' = get d k' := by
  induction d with
  | nil =>
      have hb : (k == k') = false := beq_eq_false_iff_ne.mpr h
      simp [get, set, hb]
  | cons kv rest ih =>
      cases kv with
      | mk a b =>
          by_cases ha : a = k
          · have hb : (k == k') = false := beq_eq_false_iff_ne.mpr h
            have hb2 : (a == k') = false := beq_eq_false_iff_ne.mpr (ha ▸ h)
            simp [set, get, ha, hb, hb2]
          · have hb : (a == k) = false := beq_eq_false_iff_ne.mpr ha
            simp [set, get, hb, ih]

theorem get_pop_self (d : Dict α) (k : String) :
    get (pop d k) k = none := by
  induction d with
  | nil => simp [pop, get]
  | cons kv rest ih =>
      cases kv with
      | mk a b =>
          by_cases ha : a = k
          · have hb : (a != k) = false := by
              simp [bne, ha]
            simpa [pop, hb] using ih
          · have hb : (a != k) = true := by
              simp [bne, beq_eq_false_iff_ne.mpr ha]
            have hbeq : (a == k) = false := beq_eq_false_iff_ne.mpr ha
            simp only [pop, List.filter] at *
            simp [hb, get, hbeq, ih]

theorem get_pop_ne (d : Dict α) (k k' : String) (h : k ≠ k') :
    get (pop d k) k' = get d k' := by
  induction d with
  | nil => simp [pop, get]
  | cons kv rest ih =>
      cases kv with
      | mk a b =>
          by_cases ha : a = k
          · have hb : (a != k) = false := by simp [bne, ha]
            have hbeq : (a == k') = false := beq_eq_false_iff_ne.mpr (ha ▸ h)
            simp only [pop, List.filter] at *
            simp [hb, get, hbeq, ih]
          · have hb : (a != k) = true := by
              simp [bne, beq_eq_false_iff_ne.mpr ha]
            simp only [pop, List.filter] at *
            by_cases ha' : a = k'
            · subst ha'
              simp [hb, get, ih]
            · have hbeq : (a == k') = false := beq_eq_false_iff_ne.mpr ha'
              simp [hb, get, hbeq, ih]

end Dict

/-! ## Base64 (model of Python `base64.b64encode` / `b64decode`)

Bytes are natural numbers below 256; the encoded form is the standard
RFC 4648 alphabet with `=` padding, which is what `base64.b64encode`
produces and what the worker's `base64.b64decode` consumes. -/

/-- The standard base64 alphabet. -/
def b64Alphabet : List Char :=
  "ABCDEFGHIJKLMNOPQRSTUVWXYZabcdefghijklmnopqrstuvwxyz0123456789+/".data

/-- The alphabet character for a 6-bit value. -/
def b64chr (n : Nat) : Char :=
  b64Alphabet.getD n '='

/-- The 6-bit value of an alphabet character, if it is one. -/
def b64val (c : Char) : Option Nat :=
  let i := b64Alphabet.indexOf c
  if i < 64 then some i else none

/-- Model of `base64.b64encode`: bytes to base64 characters. -/
def b64encode : List Nat → List Char
  | [] => []
  | [a] =>
      [b64chr (a / 4), b64chr (a % 4 * 16), '=', '=']
  | [a, b] =>
      [b64chr (a / 4), b64chr (a % 4 * 16 + b / 16), b64chr (b % 16 * 4), '=']
  | a :: b :: c :: rest =>
      b64chr (a / 4) :: b64chr (a % 4 * 16 + b / 16) ::
        b64chr (b % 16 * 4 + c / 64) :: b64chr (c % 64) :: b64encode rest

/-- Model of `base64.b64decode`: base64 characters back to bytes.
Returns `none` on input that is not a padded 4-character-group encoding
(the stdlib raises `binascii.Error` there, which `process_task`'s
catch-all converts into a `FAILED` record). -/
def b64decode : List Char → Option (List Nat)
  | [] => some []
  | [c0, c1, '=', '='] => do
      let a ← b64val c0
      let b ← b64val c1
      pure [a * 4 + b / 16]
  | [c0, c1, c2, '='] => do
      let a ← b64val c0
      let b ← b64val c1
      let c ← b64val c2
      pure [a * 4 + b / 16, b % 16 * 16 + c / 4]
  | c0 :: c1 :: c2 :: c3 :: rest => do
      let a ← b64val c0
      let b ← b64val c1
      let c ← b64val c2
      let d ← b64val c3
      let tail ← b64decode rest
      pure ((a * 4 + b / 16) :: (b % 16 * 16 + c / 4) :: (c % 4 * 64 + d) :: tail)
  | _ => none

/-! ## Text decoding (model of `worker.read_txt`)

`read_txt` tries `bytes.decode("utf-8")` and falls back to
`bytes.decode("latin-1")` on `UnicodeDecodeError`.  We model text as a
list of Unicode code points.  The UTF-8 decoder below is the strict
decoder Python's `utf-8` codec implements: continuation bytes must be
`80..BF`, overlong encodings, surrogates (`ED A0..BF ..`) and code
points above `10FFFF` are rejected. -/

/-- Is `b` a UTF-8 continuation byte (`80..BF`)? -/
def isCont (b : Nat) : Bool :=
  0x80 ≤ b && b ≤ 0xBF

/-- Allowed second byte after a three-byte leader (excludes overlong
encodings after `E0` and surrogates after `ED`). -/
def cont3Ok (b0 b1 : Nat) : Bool :=
  if b0 == 0xE0 then 0xA0 ≤ b1 && b1 ≤ 0xBF
  else if b0 == 0xED then 0x80 ≤ b1 && b1 ≤ 0x9F
  else isCont b1

/-- Allowed second byte after a four-byte leader (excludes overlong
encodings after `F0` and code points above `10FFFF` after `F4`). -/
def cont4Ok (b0 b1 : Nat) : Bool :=
  if b0 == 0xF0 then 0x90 ≤ b1 && b1 ≤ 0xBF
  else if b0 == 0xF4 then 0x80 ≤ b1 && b1 ≤ 0x8F
  else isCont b1

/-- Strict UTF-8 decoding, fuelled so that it computes by reduction;
`fuel` bounds the number of decoded code points (each step consumes at
least one byte, so `fuel = length of the input` always suffices). -/
def utf8DecodeAux : Nat → List Nat → Option (List Nat)
  | _, [] => some []
  | 0, _ :: _ => none
  | fuel + 1, b0 :: tl =>
      if b0 < 0x80 then
        (utf8DecodeAux fuel tl).map (b0 :: ·)
      else if 0xC2 ≤ b0 && b0 ≤ 0xDF then
        match tl with
        | b1 :: tl1 =>
            if isCont b1 then
              (utf8DecodeAux fuel tl1).map ((b0 % 0x20 * 0x40 + b1 % 0x40) :: ·)
            else none
        | [] => none
      else if 0xE0 ≤ b0 && b0 ≤ 0xEF then
        match tl with
        | b1 :: b2 :: tl2 =>
            if cont3Ok b0 b1 && isCont b2 then
              (utf8DecodeAux fuel tl2).map
                ((b0 % 0x10 * 0x1000 + b1 % 0x40 * 0x40 + b2 % 0x40) :: ·)
            else none
        | _ => none
      else if 0xF0 ≤ b0 && b0 ≤ 0xF4 then
        match tl with
        | b1 :: b2 :: b3 :: tl3 =>
            if cont4Ok b0 b1 && isCont b2 && isCont b3 then
              (utf8DecodeAux fuel tl3).map
                ((b0 % 8 * 0x40000 + b1 % 0x40 * 0x1000 + b2 % 0x40 * 0x40 + b3 % 0x40) :: ·)
            else none
        | _ => none
      else none

/-- Model of `bytes.decode("utf-8")`: the decoded code points, or `none`
on a `UnicodeDecodeError`. -/
def utf8Decode (bs : List Nat) : Option (List Nat) :=
  utf8DecodeAux bs.length bs

/-- Model of `bytes.decode("latin-1")`: total, each byte becomes the
code point of the same value. -/
def latin1Decode (bs : List Nat) : List Nat :=
  bs.map (fun b => b)

/-- Model of `worker.read_txt`: decode as UTF-8; on decode failure the
stream is rewound and decoded as Latin-1 (which never fails). -/
def read_txt (bs : List Nat) : List Nat :=
  match utf8Decode bs with
  | some cps => cps
  | none => latin1Decode bs

/-- The Unicode whitespace predicate of Python's `str.strip()` /
`str.isspace()`, on code points. -/
def pyIsSpace (c : Nat) : Bool :=
  (0x09 ≤ c && c ≤ 0x0D) || (0x1C ≤ c && c ≤ 0x1F) || c == 0x20 ||
    c == 0x85 || c == 0xA0 || c == 0x1680 || (0x2000 ≤ c && c ≤ 0x200A) ||
    c == 0x2028 || c == 0x2029 || c == 0x202F || c == 0x205F || c == 0x3000

/-- `not text or not text.strip()`: the text is empty or entirely
whitespace. -/
def stripEmpty (text : List Nat) : Bool :=
  text.all pyIsSpace

/-! ## Task records, the store, and external-collaborator oracles -/

/-- A task record: the JSON dictionary stored under `task:{id}`. -/
abbrev TaskData : Type := Dict JVal

/-- The Redis store: keys to task records. -/
abbrev Store : Type := Dict TaskData

/-- Outcome of `read_pdf` (PyPDF2 is an external collaborator): either
the concatenated page text, or the `ValueError("Failed to read PDF
content: ...")` it re-raises when the decoder rejects the stream. -/
inductive PdfOutcome where
  | ok (text : List Nat)
  | readFailure (msg : String)

/-- Outcome of the external model call in
`extract_invoice_data_with_llm`: the parsed JSON, a
`json.JSONDecodeError` (re-raised as `ValueError("LLM returned invalid
JSON")`), the `ConnectionError("LLM client not available")` raised when
the client is unconfigured, or any other exception from the API call,
re-raised with its type name and message. -/
inductive LlmOutcome where
  | ok (data : JVal)
  | invalidJson
  | clientUnavailable
  | apiFailure (typeName msg : String)

/-- Outcome of Pydantic validation of the opaque invoice schema:
`model_dump()` always yields a dictionary on success; on failure
`process_task` raises `ValueError("Schema validation failed: ...")`. -/
inductive ValOutcome where
  | ok (dumped : List (String × JVal))
  | invalid (msg : String)

/-- The external collaborators' behaviour during one processing pass. -/
structure Env where
  pdf : PdfOutcome
  llm : LlmOutcome
  validation : ValOutcome

/-- The distinct failure sites of `process_task`, i.e. the exceptions
its catch-all handler can receive.  `emptyOrUnreadable` is the
`ValueError("No text could be extracted from the document.")` raised
for empty or whitespace-only text. -/
inductive ErrKind where
  | missingFields
  | badBase64
  | unreadableDocument (msg : String)
  | unsupportedContentType (ct : String)
  | emptyOrUnreadable
  | llmUnavailable
  | llmApiFailure (typeName msg : String)
  | malformedModelOutput
  | schemaValidationFailed (msg : String)
  | storeUnavailable (msg : String)

/-- The string stored in the record's `error` field:
`f"{type(e).__name__}: {str(e)}"`. -/
def errString : ErrKind → String
  | .missingFields =>
      "ValueError: Missing 'content_type' or 'file_content_b64' in task data."
  | .badBase64 => "Error: Invalid base64-encoded string"
  | .unreadableDocument msg => "ValueError: Failed to read PDF content: " ++ msg
  | .unsupportedContentType ct =>
      "ValueError: Unsupported content_type '" ++ ct ++ "' found in task data."
  | .emptyOrUnreadable =>
      "ValueError: No text could be extracted from the document."
  | .llmUnavailable => "ConnectionError: LLM client not available"
  | .llmApiFailure typeName msg => typeName ++ ": " ++ msg
  | .malformedModelOutput => "ValueError: LLM returned invalid JSON"
  | .schemaValidationFailed msg => "ValueError: Schema validation failed: " ++ msg
  | .storeUnavailable msg => "ConnectionError: " ++ msg

/-- How one processing pass of a claimed task ends. -/
inductive StepResult where
  | completed (result : List (String × JVal))
  | failed (kind : ErrKind)

/-! ## `worker.process_task` -/

/-- Steps 3b–5 of `process_task`, after text extraction produced
`text`: the whitespace check, the model call, and schema validation. -/
def afterText (text : List Nat) (env : Env) : StepResult :=
  if stripEmpty text then .failed .emptyOrUnreadable
  else
    match env.llm with
    | .clientUnavailable => .failed .llmUnavailable
    | .apiFailure t m => .failed (.llmApiFailure t m)
    | .invalidJson => .failed .malformedModelOutput
    | .ok _ =>
        match env.validation with
        | .invalid m => .failed (.schemaValidationFailed m)
        | .ok dumped => .completed dumped

/-- Steps 2–5 of `process_task`, once `content_type` and
`file_content_b64` hold the strings `ct` and `b64`: the falsy check
(an empty string also raises the missing-fields `ValueError`),
base64-decode, dispatch on the media type, then `afterText`.  The
final `else` is the defensive unsupported-type raise. -/
def processContent (ct b64 : String) (env : Env) : StepResult :=
  if ct == "" || b64 == "" then .failed .missingFields
  else
    match b64decode b64.data with
    | none => .failed .badBase64
    | some bytes =>
        if ct == "application/pdf" then
          match env.pdf with
          | .readFailure m => .failed (.unreadableDocument m)
          | .ok text => afterText text env
        else if ct == "text/plain" then
          afterText (read_txt bytes) env
        else .failed (.unsupportedContentType ct)

/-- Steps 2–5 of `process_task`: read `content_type` and
`file_content_b64` (absent or non-string values raise the
missing-fields `ValueError`) and process the content. -/
def processOutcome (td : TaskData) (env : Env) : StepResult :=
  match Dict.get td "content_type", Dict.get td "file_content_b64" with
  | some (JVal.str ct), some (JVal.str b64) => processContent ct b64 env
  | _, _ => .failed .missingFields

/-- Step 1 of `process_task`: set `status = "PROCESSING"` and store a
copy without `file_content_b64` (the raw content stays only in the
worker's local dictionary). -/
def processingWrite (td : TaskData) : TaskData :=
  Dict.pop (Dict.set td "status" (JVal.str "PROCESSING")) "file_content_b64"

/-- Step 6 of `process_task`: the `COMPLETED` record — validated result
set, `error` cleared, raw content popped. -/
def completedWrite (td : TaskData) (result : List (String × JVal)) : TaskData :=
  Dict.pop
    (Dict.set (Dict.set (Dict.set td "status" (JVal.str "COMPLETED"))
      "result" (JVal.obj result)) "error" JVal.null)
    "file_content_b64"

/-- The catch-all handler of `process_task`: the `FAILED` record —
error string set, `result` cleared, raw content popped. -/
def failedWrite (td : TaskData) (kind : ErrKind) : TaskData :=
  Dict.pop
    (Dict.set (Dict.set (Dict.set td "status" (JVal.str "FAILED"))
      "error" (JVal.str (errString kind))) "result" JVal.null)
    "file_content_b64"

/-- The terminal record written for an outcome. -/
def finalWrite (td : TaskData) : StepResult → TaskData
  | .completed r => completedWrite td r
  | .failed k => failedWrite td k

/-- Model of `worker.process_task` when every `redis_client.set` of
the pass reaches the store: the ordered list of records it writes for
its task (the `PROCESSING` write, then exactly one terminal write),
together with the outcome.  `process_task_writes` below is the full
model in which the store itself may fail mid-pass; it agrees with this
list when all writes succeed (`process_task_writes_store_up`). -/
def process_task (td : TaskData) (env : Env) : List TaskData × StepResult :=
  let out := processOutcome td env
  ([processingWrite td, finalWrite td out], out)

/-- Outcome of one `redis_client.set` call: it either succeeds or
raises `redis.exceptions.ConnectionError` (whose type name, stored by
the handler, is `ConnectionError`). -/
inductive SetOutcome where
  | ok
  | connectionFailure (msg : String)

/-- The store's behaviour at the three `set` call sites of one
processing pass: the `PROCESSING` write, the `COMPLETED` write of the
success path, and the handler's `FAILED` write. -/
structure StoreEnv where
  processingSet : SetOutcome
  terminalSet : SetOutcome
  failedSet : SetOutcome

/-- A store that stays up for the whole pass. -/
def storeUp : StoreEnv :=
  ⟨SetOutcome.ok, SetOutcome.ok, SetOutcome.ok⟩

/-- Full model of the write behaviour of `worker.process_task`, with
the store itself allowed to fail: a `ConnectionError` from the
`PROCESSING` set or from the `COMPLETED` set is caught by the
catch-all handler, which then attempts one `FAILED` write; if that
write also raises, the exception is only logged as critical and
nothing further is stored.  Returns the records that actually reach
the store, in order.  Note the first arm: when the `PROCESSING` set
raises and the handler's set succeeds, the pass stores a single
`FAILED` record over a record whose stored status is still
`PENDING`. -/
def process_task_writes (td : TaskData) (env : Env) : StoreEnv → List TaskData
  | ⟨SetOutcome.connectionFailure msg, _, SetOutcome.ok⟩ =>
      [failedWrite td (ErrKind.storeUnavailable msg)]
  | ⟨SetOutcome.connectionFailure _, _, SetOutcome.connectionFailure _⟩ => []
  | ⟨SetOutcome.ok, ts, fs⟩ =>
      processingWrite td ::
        match processOutcome td env, ts, fs with
        | StepResult.completed r, SetOutcome.ok, _ => [completedWrite td r]
        | StepResult.completed _, SetOutcome.connectionFailure msg, SetOutcome.ok =>
            [failedWrite td (ErrKind.storeUnavailable msg)]
        | StepResult.completed _, SetOutcome.connectionFailure _,
            SetOutcome.connectionFailure _ => []
        | StepResult.failed k, _, SetOutcome.ok => [failedWrite td k]
        | StepResult.failed _, _, SetOutcome.connectionFailure _ => []

/-! ## `api.submit_invoice_for_extraction` -/

/-- Rejections of the submission endpoint: HTTP 415 for a media type
outside `{application/pdf, text/plain}`, HTTP 400 for an empty file. -/
inductive SubmitError where
  | unsupportedMediaType
  | emptyFile

/-- The freshly created record: status `PENDING`, provenance, base64
raw content, `result` and `error` null. -/
def submitRecord (filename contentType : String) (bytes : List Nat) : TaskData :=
  [("status", JVal.str "PENDING"),
   ("original_filename", JVal.str filename),
   ("content_type", JVal.str contentType),
   ("file_content_b64", JVal.str (String.mk (b64encode bytes))),
   ("result", JVal.null),
   ("error", JVal.null)]

/-- The Redis key for a task id. -/
def taskKeyOf (id : String) : String :=
  "task:" ++ id

/-- Model of `submit_invoice_for_extraction`: validate the media type
first, then reject empty content, and only then write the `PENDING`
record under a fresh id.  Returns the (possibly updated) store and the
response. -/
def submit (s : Store) (filename contentType : String) (bytes : List Nat)
    (freshId : String) : Store × Except SubmitError String :=
  if !(contentType == "application/pdf" || contentType == "text/plain") then
    (s, Except.error SubmitError.unsupportedMediaType)
  else if bytes.isEmpty then
    (s, Except.error SubmitError.emptyFile)
  else
    (Dict.set s (taskKeyOf freshId) (submitRecord filename contentType bytes),
      Except.ok freshId)

/-! ## `api.get_task_status` -/

/-- Is a value acceptable for the `result: Optional[Dict]` field of the
Pydantic `TaskStatus` response model? -/
def resultFieldOk : JVal → Bool
  | JVal.null => true
  | JVal.obj _ => true
  | _ => false

/-- Is a value acceptable for the `error: Optional[str]` field? -/
def errorFieldOk : JVal → Bool
  | JVal.null => true
  | JVal.str _ => true
  | _ => false

/-- Model of constructing `TaskStatus(**task_data)`: Pydantic keeps
exactly the declared fields `status`, `result`, `error` (extra keys are
ignored), requires `status` to be a string, and type-checks the two
optional fields; `none` is a `ValidationError`. -/
def taskStatusModel (td : TaskData) : Option TaskData :=
  match Dict.get td "status" with
  | some (JVal.str s) =>
      if resultFieldOk ((Dict.get td "result").getD JVal.null) &&
          errorFieldOk ((Dict.get td "error").getD JVal.null) then
        some [("status", JVal.str s),
          ("result", (Dict.get td "result").getD JVal.null),
          ("error", (Dict.get td "error").getD JVal.null)]
      else none
  | _ => none

/-- The polling endpoint's possible responses: 404, 500, or the
projection. -/
inductive PollResult where
  | notFound
  | invalidRecord
  | ok (proj : TaskData)

/-- Model of `get_task_status`: read the record, pop
`file_content_b64` and `content_type`, and build the `TaskStatus`
projection. -/
def get_task_status (s : Store) (taskId : String) : PollResult :=
  match Dict.get s (taskKeyOf taskId) with
  | none => PollResult.notFound
  | some td =>
      match taskStatusModel (Dict.pop (Dict.pop td "file_content_b64") "content_type") with
      | none => PollResult.invalidRecord
      | some proj => PollResult.ok proj

/-! ## `worker.main_loop`: one scan cycle -/

/-- Does a key match the `KEYS "task:*"` scan pattern? -/
def keyPatternOk (k : String) : Bool :=
  k.data.take 5 == "task:".data

/-- `task_data.get("status") == "PENDING"`. -/
def isPending (td : TaskData) : Bool :=
  match Dict.get td "status" with
  | some (JVal.str s) => s == "PENDING"
  | _ => false

/-- The scan of `main_loop`: iterate the keys matching `task:*` in
store order, and take the first whose record's status is `PENDING`.
(The loop re-reads each record by key; for a store with unduplicated
keys that is the entry itself.) -/
def findPendingTask : Store → Option (String × TaskData)
  | [] => none
  | (k, td) :: rest =>
      if keyPatternOk k && isPending td then some (k, td)
      else findPendingTask rest

/-- `task_key.split(":", 1)[1]`: everything after the first colon. -/
def taskIdOf (k : String) : String :=
  String.mk ((k.data.dropWhile (fun c => c != ':')).drop 1)

/-- Apply a list of keyed writes to the store in order. -/
def applyWrites (s : Store) (ws : List (String × TaskData)) : Store :=
  ws.foldl (fun st kw => Dict.set st kw.1 kw.2) s

/-- The keyed writes one scan cycle performs: none if no task is
pending, otherwise the writes of `process_task` that reach the store
for the claimed task, at the key `f"task:{task_id}"` it recomputes
from the split id. -/
def cycleWrites (s : Store) (env : Env) (st : StoreEnv) : List (String × TaskData) :=
  match findPendingTask s with
  | none => []
  | some (k, td) =>
      (process_task_writes td env st).map (fun w => (taskKeyOf (taskIdOf k), w))

/-- One cycle of `main_loop` over the store. -/
def workerCycle (s : Store) (env : Env) (st : StoreEnv) : Store :=
  applyWrites s (cycleWrites s env st)

/-! ## System steps and the status state machine -/

/-- The two kinds of store-mutating steps: a submission with a fresh
uuid, or one worker scan cycle (the polling endpoint never writes). -/
inductive StepDesc where
  | submission (filename contentType : String) (bytes : List Nat) (freshId : String)
  | workerScan (env : Env) (st : StoreEnv)

/-- The keyed writes a step performs, in order. -/
def stepWrites (s : Store) : StepDesc → List (String × TaskData)
  | .submission fn ct bytes id =>
      match (submit s fn ct bytes id).2 with
      | Except.ok _ => [(taskKeyOf id, submitRecord fn ct bytes)]
      | Except.error _ => []
  | .workerScan env st => cycleWrites s env st

/-- The uuid of a submission step is fresh for the store. -/
def stepFresh (s : Store) : StepDesc → Prop
  | .submission _ _ _ id => Dict.get s (taskKeyOf id) = none
  | .workerScan _ _ => True

/-- The `PROCESSING` set of a worker pass reaches the store (nothing
is required of the later sets or of a submission step). -/
def stepClaimWriteOk : StepDesc → Prop
  | .workerScan _ st => st.processingSet = SetOutcome.ok
  | .submission _ _ _ _ => True

/-- The status stored for key `k`, if any. -/
def statusAt (s : Store) (k : String) : Option JVal :=
  (Dict.get s k).bind (fun td => Dict.get td "status")

/-- An allowed move of the task state machine: creation as `PENDING`,
or one of the edges `PENDING → PROCESSING`,
`PROCESSING → {COMPLETED, FAILED}`. -/
def edgeOk (old new : Option JVal) : Prop :=
  (old = none ∧ new = some (JVal.str "PENDING")) ∨
  (old = some (JVal.str "PENDING") ∧ new = some (JVal.str "PROCESSING")) ∨
  (old = some (JVal.str "PROCESSING") ∧
    (new = some (JVal.str "COMPLETED") ∨ new = some (JVal.str "FAILED")))

/-- Every write in the list, applied in order, is an allowed move from
the status stored just before it. -/
def writesRespectEdges : Store → List (String × TaskData) → Prop
  | _, [] => True
  | s, (k, w) :: rest =>
      edgeOk (statusAt s k) (Dict.get w "status") ∧
        writesRespectEdges (Dict.set s k w) rest

/-- Keys of the store are unduplicated and match the scan pattern
(every key the system ever writes has the form `task:{id}`). -/
def StoreWF (s : Store) : Prop :=
  (Dict.keys s).Nodup ∧ ∀ kv ∈ s, ∃ id : String, kv.1 = taskKeyOf id

/-! ## Field lookups on the records the worker writes -/

theorem get_status_processingWrite (td : TaskData) :
    Dict.get (processingWrite td) "status" = some (JVal.str "PROCESSING") := by
  unfold processingWrite
  rw [Dict.get_pop_ne _ _ _ (by decide), Dict.get_set_self]

theorem get_status_completedWrite (td : TaskData) (r : List (String × JVal)) :
    Dict.get (completedWrite td r) "status" = some (JVal.str "COMPLETED") := by
  unfold completedWrite
  rw [Dict.get_pop_ne _ _ _ (by decide), Dict.get_set_ne _ _ _ _ (by decide),
    Dict.get_set_ne _ _ _ _ (by decide), Dict.get_set_self]

theorem get_result_completedWrite (td : TaskData) (r : List (String × JVal)) :
    Dict.get (completedWrite td r) "result" = some (JVal.obj r) := by
  unfold completedWrite
  rw [Dict.get_pop_ne _ _ _ (by decide), Dict.get_set_ne _ _ _ _ (by decide),
    Dict.get_set_self]

theorem get_error_completedWrite (td : TaskData) (r : List (String × JVal)) :
    Dict.get (completedWrite td r) "error" = some JVal.null := by
  unfold completedWrite
  rw [Dict.get_pop_ne _ _ _ (by decide), Dict.get_set_self]

theorem get_status_failedWrite (td : TaskData) (k : ErrKind) :
    Dict.get (failedWrite td k) "status" = some (JVal.str "FAILED") := by
  unfold failedWrite
  rw [Dict.get_pop_ne _ _ _ (by decide), Dict.get_set_ne _ _ _ _ (by decide),
    Dict.get_set_ne _ _ _ _ (by decide), Dict.get_set_self]

theorem get_error_failedWrite (td : TaskData) (k : ErrKind) :
    Dict.get (failedWrite td k) "error" = some (JVal.str (errString k)) := by
  unfold failedWrite
  rw [Dict.get_pop_ne _ _ _ (by decide), Dict.get_set_ne _ _ _ _ (by decide),
    Dict.get_set_self]

theorem get_result_failedWrite (td : TaskData) (k : ErrKind) :
    Dict.get (failedWrite td k) "result" = some JVal.null := by
  unfold failedWrite
  rw [Dict.get_pop_ne _ _ _ (by decide), Dict.get_set_self]

theorem get_b64_processingWrite (td : TaskData) :
    Dict.get (processingWrite td) "file_content_b64" = none :=
  Dict.get_pop_self _ _

theorem get_b64_finalWrite (td : TaskData) (out : StepResult) :
    Dict.get (finalWrite td out) "file_content_b64" = none := by
  cases out with
  | completed r => exact Dict.get_pop_self _ _
  | failed k => exact Dict.get_pop_self _ _

/-! ## Properties of the scan -/

theorem isPending_status (td : TaskData) (h : isPending td = true) :
    Dict.get td "status" = some (JVal.str "PENDING") := by
  unfold isPending at h
  split at h
  · next s hs =>
      rw [hs]
      have : s = "PENDING" := by simpa using h
      rw [this]
  · simp at h

theorem findPendingTask_spec (s : Store) (k : String) (td : TaskData)
    (h : findPendingTask s = some (k, td)) :
    (k, td) ∈ s ∧ keyPatternOk k = true ∧ isPending td = true := by
  induction s with
  | nil => simp [findPendingTask] at h
  | cons kv rest ih =>
      cases kv with
      | mk k' td' =>
          simp only [findPendingTask] at h
          split at h
          · next hc =>
              cases h
              have hc' := hc
              rw [Bool.and_eq_true] at hc'
              exact ⟨List.mem_cons_self _ _, hc'.1, hc'.2⟩
          · have h' := ih h
            exact ⟨List.mem_cons_of_mem _ h'.1, h'.2⟩

theorem Dict.get_of_mem_nodup {α : Type} (d : Dict α) (k : String) (v : α)
    (hnd : (Dict.keys d).Nodup) (hm : (k, v) ∈ d) : Dict.get d k = some v := by
  induction d with
  | nil => simp at hm
  | cons kv rest ih =>
      cases kv with
      | mk k' v' =>
          rcases List.mem_cons.mp hm with heq | hmem
          · rw [← heq]
            simp [Dict.get]
          · have hnd' : (Dict.keys rest).Nodup ∧ k' ∉ Dict.keys rest := by
              have := List.nodup_cons.mp hnd
              exact ⟨this.2, this.1⟩
            have hk : k' ≠ k := by
              intro he
              exact hnd'.2 (he ▸ List.mem_map_of_mem Prod.fst hmem)
            simp [Dict.get, beq_eq_false_iff_ne.mpr hk, ih hnd'.1 hmem]

/-- Splitting `f"task:{id}"` at the first colon and re-prefixing gives
the key back, for any key matching the scan pattern. -/
theorem taskKeyOf_taskIdOf (k : String) (h : keyPatternOk k = true) :
    taskKeyOf (taskIdOf k) = k := by
  cases k with
  | mk d =>
      have hd : d.take 5 = "task:".data := by
        simpa [keyPatternOk] using h
      have hsplit : d = "task:".data ++ d.drop 5 := by
        conv_lhs => rw [← List.take_append_drop 5 d, hd]
      have hdrop : ∀ l : List Char,
          ((("task:".data ++ l).dropWhile (fun c => c != ':')).drop 1) = l :=
        fun l => rfl
      show taskKeyOf (taskIdOf (String.mk d)) = String.mk d
      unfold taskIdOf
      conv_lhs => rw [show (String.mk d).data = d from rfl, hsplit, hdrop]
      conv_rhs => rw [hsplit]
      rfl

theorem processOutcome_eq (td : TaskData) (env : Env) (ct b64 : String)
    (hct : Dict.get td "content_type" = some (JVal.str ct))
    (hb : Dict.get td "file_content_b64" = some (JVal.str b64)) :
    processOutcome td env = processContent ct b64 env := by
  unfold processOutcome
  rw [hct, hb]

/-! ## Sample data used by the concrete witnesses -/

/-- An environment where every external collaborator succeeds. -/
def envOk : Env :=
  ⟨PdfOutcome.ok [0x41], LlmOutcome.ok (JVal.obj []),
    ValOutcome.ok [("invoice_number", JVal.str "42")]⟩

/-- An environment whose model client is unavailable: the call site
raises `ConnectionError("LLM client not available")`. -/
def envClientDown : Env :=
  ⟨PdfOutcome.ok [0x41], LlmOutcome.clientUnavailable, ValOutcome.ok []⟩

/-- The record a submission of the text file `hello` creates. -/
def helloTask : TaskData :=
  submitRecord "invoice.txt" "text/plain" [104, 101, 108, 108, 111]

/-- The record a submission of a single-space text file creates. -/
def spaceTask : TaskData :=
  submitRecord "blank.txt" "text/plain" [0x20]

/-- A store holding one pending task. -/
def sampleStore : Store :=
  [("task:a1", helloTask)]

example : b64encode [104, 101, 108, 108, 111] = "aGVsbG8=".data := by decide
example : b64decode "aGVsbG8=".data = some [104, 101, 108, 108, 111] := by decide
example : b64decode "IA==".data = some [0x20] := by decide
example : utf8Decode [0x68, 0x69] = some [0x68, 0x69] := by decide
example : utf8Decode [0xFF] = none := by decide
example : utf8Decode [0xC3, 0xA9] = some [0xE9] := by decide
example : read_txt [0xE9] = [0xE9] := by decide
example : stripEmpty [0x20, 0x09] = true := by decide

/-! ## The claims -/

/-- C7: for every plain-text input whose bytes are not valid UTF-8,
text extraction does not fail on decoding: it falls back to decoding
the same bytes as Latin-1, and for a non-empty such input it returns
non-empty text. -/
theorem c7_latin1_fallback (bs : List Nat) (h : utf8Decode bs = none) :
    read_txt bs = latin1Decode bs ∧ (bs ≠ [] → read_txt bs ≠ []) := by
  have hr : read_txt bs = latin1Decode bs := by
    unfold read_txt
    rw [h]
  refine ⟨hr, fun hne => ?_⟩
  rw [hr]
  unfold latin1Decode
  simpa using hne

/-- Witness for C7 at the single byte `0xFF`, which is invalid UTF-8. -/
theorem c7_latin1_fallback_witness :
    read_txt [0xFF] = latin1Decode [0xFF] ∧
      (([0xFF] : List Nat) ≠ [] → read_txt [0xFF] ≠ []) :=
  c7_latin1_fallback [0xFF] (by decide)

/-- C10: every record `process_task` writes for its task — the
`PROCESSING` write and the terminal write — lacks the
`file_content_b64` field, so from the moment the worker writes
`PROCESSING` the stored record no longer carries the raw document
content and no later write re-adds it. -/
theorem c10_raw_content_cleared (td : TaskData) (env : Env) (w : TaskData)
    (hw : w ∈ (process_task td env).1) :
    Dict.get w "file_content_b64" = none := by
  have hw' : w = processingWrite td ∨ w = finalWrite td (processOutcome td env) := by
    simpa [process_task] using hw
  rcases hw' with h | h
  · subst h
    exact get_b64_processingWrite td
  · subst h
    exact get_b64_finalWrite td _

/-- Witness for C10: the `PROCESSING` write of a concrete task. -/
theorem c10_raw_content_cleared_witness :
    Dict.get (processingWrite helloTask) "file_content_b64" = none :=
  c10_raw_content_cleared helloTask envOk (processingWrite helloTask)
    (by simp [process_task])

/-- C5: a terminal record written by `process_task` pairs its fields
exclusively — `COMPLETED` has a non-null (dictionary) result and a null
error, `FAILED` has a non-null (string) error and a null result. -/
theorem c5_terminal_exclusive (td : TaskData) (env : Env) (w : TaskData)
    (hw : w ∈ (process_task td env).1) :
    (Dict.get w "status" = some (JVal.str "COMPLETED") →
      (∃ r, Dict.get w "result" = some (JVal.obj r)) ∧
        Dict.get w "error" = some JVal.null) ∧
    (Dict.get w "status" = some (JVal.str "FAILED") →
      (∃ m, Dict.get w "error" = some (JVal.str m)) ∧
        Dict.get w "result" = some JVal.null) := by
  have hw' : w = processingWrite td ∨ w = finalWrite td (processOutcome td env) := by
    simpa [process_task] using hw
  rcases hw' with h | h
  · subst h
    constructor
    · intro hc
      rw [get_status_processingWrite] at hc
      simp at hc
    · intro hf
      rw [get_status_processingWrite] at hf
      simp at hf
  · subst h
    cases hout : processOutcome td env with
    | completed r =>
        constructor
        · intro _
          simp only [finalWrite]
          exact ⟨⟨r, get_result_completedWrite td r⟩, get_error_completedWrite td r⟩
        · intro hf
          simp only [finalWrite] at hf
          rw [get_status_completedWrite] at hf
          simp at hf
    | failed kk =>
        constructor
        · intro hc
          simp only [finalWrite] at hc
          rw [get_status_failedWrite] at hc
          simp at hc
        · intro _
          simp only [finalWrite]
          exact ⟨⟨errString kk, get_error_failedWrite td kk⟩, get_result_failedWrite td kk⟩

/-- Witness for C5: the terminal write of a concrete successful task. -/
theorem c5_terminal_exclusive_witness :
    (Dict.get (finalWrite helloTask (processOutcome helloTask envOk)) "status" =
        some (JVal.str "COMPLETED") →
      (∃ r, Dict.get (finalWrite helloTask (processOutcome helloTask envOk)) "result" =
          some (JVal.obj r)) ∧
        Dict.get (finalWrite helloTask (processOutcome helloTask envOk)) "error" =
          some JVal.null) ∧
    (Dict.get (finalWrite helloTask (processOutcome helloTask envOk)) "status" =
        some (JVal.str "FAILED") →
      (∃ m, Dict.get (finalWrite helloTask (processOutcome helloTask envOk)) "error" =
          some (JVal.str m)) ∧
        Dict.get (finalWrite helloTask (processOutcome helloTask envOk)) "result" =
          some JVal.null) :=
  c5_terminal_exclusive helloTask envOk _ (by simp [process_task])

/-- C6: processing a plain-text task whose stored content decodes to
empty or whitespace-only text ends with the
`ValueError("No text could be extracted from the document.")` raise —
the `EmptyOrUnreadable` kind — and the terminal record has status
`FAILED` carrying that error. -/
theorem c6_whitespace_failed (td : TaskData) (env : Env) (b64s : String) (bytes : List Nat)
    (hct : Dict.get td "content_type" = some (JVal.str "text/plain"))
    (hb : Dict.get td "file_content_b64" = some (JVal.str b64s))
    (hne : b64s ≠ "")
    (hdec : b64decode b64s.data = some bytes)
    (hws : stripEmpty (read_txt bytes) = true) :
    (process_task td env).2 = StepResult.failed ErrKind.emptyOrUnreadable ∧
      Dict.get (finalWrite td (process_task td env).2) "status" =
        some (JVal.str "FAILED") ∧
      Dict.get (finalWrite td (process_task td env).2) "error" =
        some (JVal.str (errString ErrKind.emptyOrUnreadable)) := by
  have hbne : (b64s == "") = false := beq_eq_false_iff_ne.mpr hne
  have hout : processOutcome td env = StepResult.failed ErrKind.emptyOrUnreadable := by
    rw [processOutcome_eq td env _ _ hct hb]
    unfold processContent
    rw [hbne, hdec]
    show afterText (read_txt bytes) env = StepResult.failed ErrKind.emptyOrUnreadable
    unfold afterText
    rw [hws]
    rfl
  have hout2 : (process_task td env).2 = StepResult.failed ErrKind.emptyOrUnreadable := hout
  refine ⟨hout2, ?_, ?_⟩
  · rw [hout2]
    exact get_status_failedWrite td _
  · rw [hout2]
    exact get_error_failedWrite td _

/-- Witness for C6: a text file holding one space (`base64 "IA=="`). -/
theorem c6_whitespace_failed_witness :
    (process_task spaceTask envOk).2 = StepResult.failed ErrKind.emptyOrUnreadable ∧
      Dict.get (finalWrite spaceTask (process_task spaceTask envOk).2) "status" =
        some (JVal.str "FAILED") ∧
      Dict.get (finalWrite spaceTask (process_task spaceTask envOk).2) "error" =
        some (JVal.str (errString ErrKind.emptyOrUnreadable)) :=
  c6_whitespace_failed spaceTask envOk "IA==" [0x20] rfl rfl (by decide) (by decide)
    (by decide)

/-- C2 counterexample: a model connectivity failure during processing
of a claimed task (the `ConnectionError` raised when the model client
is unavailable) does NOT propagate to the loop's backoff logic — the
task itself is written `FAILED`, with the connectivity error recorded,
contradicting the claim that only the four `ExtractionError` kinds and
submission validation terminate a task as `FAILED`. -/
theorem c2_counterexample :
    (process_task helloTask envClientDown).1.map (fun w => Dict.get w "status") =
      [some (JVal.str "PROCESSING"), some (JVal.str "FAILED")] ∧
    (process_task helloTask envClientDown).2 = StepResult.failed ErrKind.llmUnavailable ∧
    Dict.get (finalWrite helloTask (process_task helloTask envClientDown).2) "error" =
      some (JVal.str "ConnectionError: LLM client not available") :=
  ⟨rfl, rfl, rfl⟩

/-- C2 (amended): a model connectivity failure while a claimed task is
being processed is not retried by the Worker Loop's backoff/reconnect
logic: it is caught by `process_task`'s catch-all handler and
terminates that task as `FAILED`, with the exception's type name and
message recorded in the error field. -/
theorem c2_amended_transport_fails_task (td : TaskData) (env : Env) (b64s : String)
    (bytes : List Nat)
    (hct : Dict.get td "content_type" = some (JVal.str "text/plain"))
    (hb : Dict.get td "file_content_b64" = some (JVal.str b64s))
    (hne : b64s ≠ "")
    (hdec : b64decode b64s.data = some bytes)
    (hws : stripEmpty (read_txt bytes) = false)
    (hllm : env.llm = LlmOutcome.clientUnavailable) :
    (process_task td env).2 = StepResult.failed ErrKind.llmUnavailable ∧
      Dict.get (finalWrite td (process_task td env).2) "status" =
        some (JVal.str "FAILED") ∧
      Dict.get (finalWrite td (process_task td env).2) "error" =
        some (JVal.str "ConnectionError: LLM client not available") := by
  have hbne : (b64s == "") = false := beq_eq_false_iff_ne.mpr hne
  have hout : processOutcome td env = StepResult.failed ErrKind.llmUnavailable := by
    rw [processOutcome_eq td env _ _ hct hb]
    unfold processContent
    rw [hbne, hdec]
    show afterText (read_txt bytes) env = StepResult.failed ErrKind.llmUnavailable
    unfold afterText
    rw [hws, hllm]
    rfl
  have hout2 : (process_task td env).2 = StepResult.failed ErrKind.llmUnavailable := hout
  refine ⟨hout2, ?_, ?_⟩
  · rw [hout2]
    exact get_status_failedWrite td _
  · rw [hout2]
    exact get_error_failedWrite td _

/-- Witness for the amended C2 at a concrete task and environment. -/
theorem c2_amended_transport_fails_task_witness :
    (process_task helloTask envClientDown).2 = StepResult.failed ErrKind.llmUnavailable ∧
      Dict.get (finalWrite helloTask (process_task helloTask envClientDown).2) "status" =
        some (JVal.str "FAILED") ∧
      Dict.get (finalWrite helloTask (process_task helloTask envClientDown).2) "error" =
        some (JVal.str "ConnectionError: LLM client not available") :=
  c2_amended_transport_fails_task helloTask envClientDown "aGVsbG8="
    [104, 101, 108, 108, 111] rfl rfl (by decide) (by decide) (by decide) rfl

/-- No outcome of the post-extraction stages is the unsupported-type
failure. -/
theorem afterText_not_unsupported (text : List Nat) (env : Env) (c : String) :
    afterText text env ≠ StepResult.failed (ErrKind.unsupportedContentType c) := by
  intro hEq
  unfold afterText at hEq
  split at hEq
  · simp at hEq
  · cases hl : env.llm with
    | ok d =>
        rw [hl] at hEq
        cases hv : env.validation <;> rw [hv] at hEq <;> simp at hEq
    | invalidJson =>
        rw [hl] at hEq
        simp at hEq
    | clientUnavailable =>
        rw [hl] at hEq
        simp at hEq
    | apiFailure t m =>
        rw [hl] at hEq
        simp at hEq

/-- For a content type in the supported set, the unsupported-type
branch of `process_task` is never taken. -/
theorem processContent_not_unsupported (ct b64 : String) (env : Env)
    (h : ct = "application/pdf" ∨ ct = "text/plain") (c : String) :
    processContent ct b64 env ≠ StepResult.failed (ErrKind.unsupportedContentType c) := by
  intro hEq
  unfold processContent at hEq
  split at hEq
  · simp at hEq
  · split at hEq
    · simp at hEq
    · rcases h with h | h <;> subst h
      · rw [if_pos (show (("application/pdf" : String) == "application/pdf") = true
          from rfl)] at hEq
        cases hp : env.pdf with
        | readFailure m =>
            rw [hp] at hEq
            simp at hEq
        | ok text =>
            rw [hp] at hEq
            exact afterText_not_unsupported text env c hEq
      · simp at hEq
        exact afterText_not_unsupported _ env c hEq

/-- C9: every task record the submission endpoint creates has a
content type in `{application/pdf, text/plain}`, and for such a record
the worker's defensive unsupported-content-type branch can never be
the outcome of `process_task`, whatever the collaborators do. -/
theorem c9_unsupported_branch_unreachable (s : Store) (fn ct : String) (bytes : List Nat)
    (id tid : String) (s2 : Store)
    (h : submit s fn ct bytes id = (s2, Except.ok tid)) :
    ∃ td, Dict.get s2 (taskKeyOf id) = some td ∧
      Dict.get td "content_type" = some (JVal.str ct) ∧
      (ct = "application/pdf" ∨ ct = "text/plain") ∧
      ∀ env c, processOutcome td env ≠ StepResult.failed (ErrKind.unsupportedContentType c) := by
  unfold submit at h
  by_cases hct : (ct == "application/pdf" || ct == "text/plain") = true
  · rw [hct] at h
    simp only [Bool.not_true] at h
    rw [if_neg (by simp)] at h
    by_cases hbe : bytes.isEmpty = true
    · rw [if_pos hbe] at h
      simp at h
    · rw [if_neg hbe] at h
      have hs2 : s2 = Dict.set s (taskKeyOf id) (submitRecord fn ct bytes) :=
        (congrArg Prod.fst h).symm
      subst hs2
      refine ⟨submitRecord fn ct bytes, Dict.get_set_self _ _ _, rfl, ?_, ?_⟩
      · rcases Bool.or_eq_true_iff.mp hct with hc | hc
        · exact Or.inl (eq_of_beq hc)
        · exact Or.inr (eq_of_beq hc)
      · intro env c
        rw [processOutcome_eq (submitRecord fn ct bytes) env ct
          (String.mk (b64encode bytes)) rfl rfl]
        refine processContent_not_unsupported ct (String.mk (b64encode bytes)) env ?_ c
        rcases Bool.or_eq_true_iff.mp hct with hc | hc
        · exact Or.inl (eq_of_beq hc)
        · exact Or.inr (eq_of_beq hc)
  · have hct' : (ct == "application/pdf" || ct == "text/plain") = false :=
      Bool.eq_false_iff.mpr hct
    rw [hct'] at h
    simp at h

/-- Witness for C9: a concrete accepted plain-text submission. -/
theorem c9_unsupported_branch_unreachable_witness :
    ∃ td, Dict.get (submit [] "invoice.txt" "text/plain" [104] "a1").1
        (taskKeyOf "a1") = some td ∧
      Dict.get td "content_type" = some (JVal.str "text/plain") ∧
      ("text/plain" = "application/pdf" ∨ "text/plain" = "text/plain") ∧
      ∀ env c, processOutcome td env ≠ StepResult.failed (ErrKind.unsupportedContentType c) :=
  c9_unsupported_branch_unreachable [] "invoice.txt" "text/plain" [104] "a1" "a1"
    (submit [] "invoice.txt" "text/plain" [104] "a1").1 rfl

/-- C8: a submission with an unsupported media type, or with empty raw
bytes, is rejected before any store write: the store is returned
unchanged and no task record is created. -/
theorem c8_rejected_before_write (s : Store) (fn ct : String) (bytes : List Nat)
    (id : String)
    (h : (ct ≠ "application/pdf" ∧ ct ≠ "text/plain") ∨ bytes = []) :
    (submit s fn ct bytes id).1 = s ∧
      ∃ e, (submit s fn ct bytes id).2 = Except.error e := by
  by_cases hct : (ct == "application/pdf" || ct == "text/plain") = true
  · have hbytes : bytes = [] := by
      rcases h with ⟨h1, h2⟩ | h2
      · rcases Bool.or_eq_true_iff.mp hct with hc | hc
        · exact absurd (eq_of_beq hc) h1
        · exact absurd (eq_of_beq hc) h2
      · exact h2
    subst hbytes
    unfold submit
    rw [hct]
    exact ⟨rfl, SubmitError.emptyFile, rfl⟩
  · have hct' : (ct == "application/pdf" || ct == "text/plain") = false :=
      Bool.eq_false_iff.mpr hct
    unfold submit
    rw [hct']
    exact ⟨rfl, SubmitError.unsupportedMediaType, rfl⟩

/-- Witness for C8: a GIF upload is rejected with the store as it
was. -/
theorem c8_rejected_before_write_witness :
    (submit sampleStore "cat.gif" "image/gif" [1, 2] "b2").1 = sampleStore ∧
      ∃ e, (submit sampleStore "cat.gif" "image/gif" [1, 2] "b2").2 = Except.error e :=
  c8_rejected_before_write sampleStore "cat.gif" "image/gif" [1, 2] "b2"
    (Or.inl ⟨by decide, by decide⟩)

/-- The `TaskStatus` projection always has exactly the three declared
fields. -/
theorem taskStatusModel_shape (td : TaskData) (p : TaskData)
    (h : taskStatusModel td = some p) :
    ∃ st r e, p = [("status", JVal.str st), ("result", r), ("error", e)] := by
  unfold taskStatusModel at h
  split at h
  · split at h
    · next st hst =>
        cases h
        exact ⟨_, _, _, rfl⟩
    · cases h
  · cases h

/-- C4: whatever the stored record holds and whatever its status, the
projection the polling endpoint returns has exactly the fields
`status`, `result`, `error`; in particular neither `file_content_b64`
nor `content_type` is ever present. -/
theorem c4_projection_fields (s : Store) (id : String) (proj : TaskData)
    (h : get_task_status s id = PollResult.ok proj) :
    Dict.keys proj = ["status", "result", "error"] ∧
      Dict.get proj "file_content_b64" = none ∧
      Dict.get proj "content_type" = none := by
  unfold get_task_status at h
  split at h
  · cases h
  · split at h
    · cases h
    · next p hp =>
        cases h
        obtain ⟨st, r, e, rfl⟩ := taskStatusModel_shape _ _ hp
        exact ⟨rfl, rfl, rfl⟩

/-- Witness for C4 at a concrete store and task id. -/
theorem c4_projection_fields_witness :
    Dict.keys [("status", JVal.str "PENDING"), ("result", JVal.null),
        ("error", JVal.null)] = ["status", "result", "error"] ∧
      Dict.get [("status", JVal.str "PENDING"), ("result", JVal.null),
        ("error", JVal.null)] "file_content_b64" = none ∧
      Dict.get [("status", JVal.str "PENDING"), ("result", JVal.null),
        ("error", JVal.null)] "content_type" = none :=
  c4_projection_fields sampleStore "a1"
    [("status", JVal.str "PENDING"), ("result", JVal.null), ("error", JVal.null)] rfl

/-- Writes that all target one key leave every other key's record
unchanged. -/
theorem get_applyWrites_other (s : Store) (key k : String) (ws : List TaskData)
    (hne : key ≠ k) :
    Dict.get (applyWrites s (ws.map (fun w => (key, w)))) k = Dict.get s k := by
  induction ws generalizing s with
  | nil => rfl
  | cons w rest ih =>
      show Dict.get (applyWrites (Dict.set s key w) (rest.map (fun w => (key, w)))) k =
        Dict.get s k
      rw [ih (Dict.set s key w), Dict.get_set_ne _ _ _ _ hne]

/-- C3: the worker only claims a record it has just read as `PENDING`:
if the scan selects a task its stored status is `PENDING`, and a
record whose stored status is not `PENDING` is left untouched by the
whole cycle — whatever the collaborators and the store's set calls do
— in particular it is never written `PROCESSING`. -/
theorem c3_claim_requires_pending (s : Store) (env : Env) (st : StoreEnv)
    (hwf : StoreWF s) :
    (∀ k td, findPendingTask s = some (k, td) →
      statusAt s k = some (JVal.str "PENDING")) ∧
    (∀ k, statusAt s k ≠ some (JVal.str "PENDING") →
      Dict.get (workerCycle s env st) k = Dict.get s k) := by
  have hpend : ∀ k td, findPendingTask s = some (k, td) →
      statusAt s k = some (JVal.str "PENDING") := by
    intro k td hf
    obtain ⟨hmem, hpat, hp⟩ := findPendingTask_spec s k td hf
    have hg : Dict.get s k = some td := Dict.get_of_mem_nodup s k td hwf.1 hmem
    unfold statusAt
    rw [hg]
    exact isPending_status td hp
  refine ⟨hpend, ?_⟩
  intro k hk
  unfold workerCycle cycleWrites
  cases hf : findPendingTask s with
  | none => rfl
  | some kt =>
      obtain ⟨k0, td0⟩ := kt
      obtain ⟨hmem, hpat, hp⟩ := findPendingTask_spec s k0 td0 hf
      have hkey : taskKeyOf (taskIdOf k0) = k0 := taskKeyOf_taskIdOf k0 hpat
      have hne : k0 ≠ k := by
        intro he
        subst he
        exact hk (hpend k0 td0 hf)
      show Dict.get (applyWrites s ((process_task_writes td0 env st).map
        (fun w => (taskKeyOf (taskIdOf k0), w)))) k = Dict.get s k
      rw [hkey]
      exact get_applyWrites_other s k0 k (process_task_writes td0 env st) hne

/-- Witness for C3 at a concrete one-task store. -/
theorem c3_claim_requires_pending_witness :
    (∀ k td, findPendingTask sampleStore = some (k, td) →
      statusAt sampleStore k = some (JVal.str "PENDING")) ∧
    (∀ k, statusAt sampleStore k ≠ some (JVal.str "PENDING") →
      Dict.get (workerCycle sampleStore envOk storeUp) k = Dict.get sampleStore k) :=
  c3_claim_requires_pending sampleStore envOk storeUp
    ⟨by decide, fun kv hkv => by
      rw [List.mem_singleton.mp hkv]
      exact ⟨"a1", rfl⟩⟩

/-- Introduction form for `writesRespectEdges` on a cons. -/
theorem writesRespectEdges_cons_intro (s : Store) (k : String) (w : TaskData)
    (rest : List (String × TaskData))
    (h1 : edgeOk (statusAt s k) (Dict.get w "status"))
    (h2 : writesRespectEdges (Dict.set s k w) rest) :
    writesRespectEdges s ((k, w) :: rest) :=
  ⟨h1, h2⟩

/-- Unfolding equation for a pass whose `PROCESSING` set succeeds. -/
theorem process_task_writes_ok (td : TaskData) (env : Env) (ts fs : SetOutcome) :
    process_task_writes td env ⟨SetOutcome.ok, ts, fs⟩ =
      processingWrite td ::
        match processOutcome td env, ts, fs with
        | StepResult.completed r, SetOutcome.ok, _ => [completedWrite td r]
        | StepResult.completed _, SetOutcome.connectionFailure msg, SetOutcome.ok =>
            [failedWrite td (ErrKind.storeUnavailable msg)]
        | StepResult.completed _, SetOutcome.connectionFailure _,
            SetOutcome.connectionFailure _ => []
        | StepResult.failed k, _, SetOutcome.ok => [failedWrite td k]
        | StepResult.failed _, _, SetOutcome.connectionFailure _ => [] := rfl

/-- When the store stays up for the whole pass, the full write model
coincides with `process_task`'s write list. -/
theorem process_task_writes_store_up (td : TaskData) (env : Env) :
    process_task_writes td env storeUp = (process_task td env).1 := by
  rw [show storeUp = (⟨SetOutcome.ok, SetOutcome.ok, SetOutcome.ok⟩ : StoreEnv) from rfl,
    process_task_writes_ok]
  cases hout : processOutcome td env <;>
    simp [process_task, finalWrite, hout]

/-- A claimed pass that stores only its `PROCESSING` record respects
the state machine. -/
theorem writesRespectEdges_claim_single (s : Store) (k0 : String) (td0 : TaskData)
    (hst : statusAt s k0 = some (JVal.str "PENDING")) :
    writesRespectEdges s [(k0, processingWrite td0)] :=
  ⟨Or.inr (Or.inl ⟨hst, get_status_processingWrite td0⟩), trivial⟩

/-- A claimed pass that stores its `PROCESSING` record and then one
terminal record respects the state machine. -/
theorem writesRespectEdges_claim_pair (s : Store) (k0 : String) (td0 w2 : TaskData)
    (hst : statusAt s k0 = some (JVal.str "PENDING"))
    (hw2 : Dict.get w2 "status" = some (JVal.str "COMPLETED") ∨
      Dict.get w2 "status" = some (JVal.str "FAILED")) :
    writesRespectEdges s [(k0, processingWrite td0), (k0, w2)] := by
  refine writesRespectEdges_cons_intro _ _ _ _
    (Or.inr (Or.inl ⟨hst, get_status_processingWrite td0⟩))
    (writesRespectEdges_cons_intro _ _ _ _ ?_ trivial)
  refine Or.inr (Or.inr ⟨?_, hw2⟩)
  unfold statusAt
  rw [Dict.get_set_self]
  exact get_status_processingWrite td0

/-- A store whose `PROCESSING` set raises `ConnectionError` while the
handler's `FAILED` set succeeds (the store came back between the two
calls). -/
def storeDownAtClaim : StoreEnv :=
  ⟨SetOutcome.connectionFailure "Connection refused", SetOutcome.ok, SetOutcome.ok⟩

/-- C1 counterexample: when the `PROCESSING` set of a claimed pass
raises `ConnectionError` and the catch-all handler's own set then
succeeds, the cycle stores a single `FAILED` record over a record
whose stored status is still `PENDING` — the direct `PENDING → FAILED`
move the claim forbids — so the cycle's writes violate the claimed
state machine at this concrete store and environment. -/
theorem c1_counterexample :
    statusAt sampleStore "task:a1" = some (JVal.str "PENDING") ∧
    stepWrites sampleStore (StepDesc.workerScan envOk storeDownAtClaim) =
      [("task:a1", failedWrite helloTask (ErrKind.storeUnavailable "Connection refused"))] ∧
    ¬ writesRespectEdges sampleStore
        (stepWrites sampleStore (StepDesc.workerScan envOk storeDownAtClaim)) := by
  refine ⟨rfl, rfl, ?_⟩
  intro h
  have h' : edgeOk (statusAt sampleStore "task:a1")
      (Dict.get (failedWrite helloTask (ErrKind.storeUnavailable "Connection refused"))
        "status") ∧ True := h
  have hst : statusAt sampleStore "task:a1" = some (JVal.str "PENDING") := rfl
  have hw : Dict.get (failedWrite helloTask (ErrKind.storeUnavailable "Connection refused"))
      "status" = some (JVal.str "FAILED") := get_status_failedWrite _ _
  rcases h'.1 with ⟨ha, _⟩ | ⟨_, hb⟩ | ⟨ha, _⟩
  · rw [hst] at ha
    exact Option.noConfusion ha
  · rw [hw] at hb
    exact absurd (JVal.str.inj (Option.some.inj hb)) (by decide)
  · rw [hst] at ha
    exact absurd (JVal.str.inj (Option.some.inj ha)) (by decide)

/-- C1 (amended): every store write a system step performs respects
the task state machine, provided the `PROCESSING` write of a claimed
pass reaches the store.  Creation (a submission with a fresh uuid)
writes `PENDING` at an absent key; a worker pass whose claim write
succeeds writes `PROCESSING` over a record read as `PENDING` and then
at most one of `COMPLETED`/`FAILED` over the `PROCESSING` record,
whether or not the later set calls succeed.  (Without the proviso the
claim fails: see the counterexample, where a failed `PROCESSING` set
makes the handler write `FAILED` directly over `PENDING`.) -/
theorem c1_amended_status_trajectory (s : Store) (d : StepDesc) (hwf : StoreWF s)
    (hfresh : stepFresh s d) (hclaim : stepClaimWriteOk d) :
    writesRespectEdges s (stepWrites s d) := by
  cases d with
  | submission fn ct bytes id =>
      have hf : Dict.get s (taskKeyOf id) = none := hfresh
      show writesRespectEdges s
        (match (submit s fn ct bytes id).2 with
          | Except.ok _ => [(taskKeyOf id, submitRecord fn ct bytes)]
          | Except.error _ => [])
      cases hs : (submit s fn ct bytes id).2 with
      | error e => exact trivial
      | ok tid =>
          refine writesRespectEdges_cons_intro _ _ _ _ ?_ trivial
          refine Or.inl ⟨?_, rfl⟩
          unfold statusAt
          rw [hf]
          rfl
  | workerScan env st =>
      show writesRespectEdges s (cycleWrites s env st)
      unfold cycleWrites
      cases hfp : findPendingTask s with
      | none => exact trivial
      | some kt =>
          obtain ⟨k0, td0⟩ := kt
          obtain ⟨hmem, hpat, hp⟩ := findPendingTask_spec s k0 td0 hfp
          have hkey : taskKeyOf (taskIdOf k0) = k0 := taskKeyOf_taskIdOf k0 hpat
          have hget : Dict.get s k0 = some td0 :=
            Dict.get_of_mem_nodup s k0 td0 hwf.1 hmem
          have hst : statusAt s k0 = some (JVal.str "PENDING") := by
            unfold statusAt
            rw [hget]
            exact isPending_status td0 hp
          obtain ⟨ps, ts, fs⟩ := st
          have hps : ps = SetOutcome.ok := hclaim
          subst hps
          show writesRespectEdges s ((process_task_writes td0 env
            ⟨SetOutcome.ok, ts, fs⟩).map (fun w => (taskKeyOf (taskIdOf k0), w)))
          rw [hkey, process_task_writes_ok]
          cases hout : processOutcome td0 env with
          | completed r =>
              cases ts with
              | ok =>
                  exact writesRespectEdges_claim_pair s k0 td0 (completedWrite td0 r)
                    hst (Or.inl (get_status_completedWrite td0 r))
              | connectionFailure msg =>
                  cases fs with
                  | ok =>
                      exact writesRespectEdges_claim_pair s k0 td0
                        (failedWrite td0 (ErrKind.storeUnavailable msg)) hst
                        (Or.inr (get_status_failedWrite td0 _))
                  | connectionFailure msg2 =>
                      exact writesRespectEdges_claim_single s k0 td0 hst
          | failed kk =>
              cases fs with
              | ok =>
                  exact writesRespectEdges_claim_pair s k0 td0 (failedWrite td0 kk)
                    hst (Or.inr (get_status_failedWrite td0 kk))
              | connectionFailure msg2 =>
                  exact writesRespectEdges_claim_single s k0 td0 hst

/-- Witness for the amended C1: a worker cycle, with the store up,
over a concrete one-task store. -/
theorem c1_amended_status_trajectory_witness :
    writesRespectEdges sampleStore
      (stepWrites sampleStore (StepDesc.workerScan envOk storeUp)) :=
  c1_amended_status_trajectory sampleStore (StepDesc.workerScan envOk storeUp)
    ⟨by decide, fun kv hkv => by
      rw [List.mem_singleton.mp hkv]
      exact ⟨"a1", rfl⟩⟩ trivial rfl

end Invoice
